import Mathlib

/-!
Shallow embedding of the local-state logic of the `rm-shop-v2` shopping-cart
application: the Apollo in-memory cache holding `Character` and `ShoppingCart`
records, the field resolvers (`setUnitPrice`, the chosen-quantity default) and
the two mutation resolvers (`increaseChosenQuantity`, `decreaseChosenQuantity`).

The cache is modelled as a list of character records (keyed by `id`) plus an
optional singleton shopping-cart record.  `readFragment` keyed by a character
id is `List.find?` on the id; `writeFragment` overwrites the record with the
matching id (inserting when absent, as the cache does).  JavaScript numbers
holding integer quantities and prices are modelled as `Int`.
-/

namespace RmShop

/-- A cached `Character` record: the fields of `CharacterDataFragment`
(`id`, `name`, `unitPrice`, `chosenQuantity`) plus `species` standing for the
remaining server-supplied fields that the mutation resolvers never touch. -/
structure Character where
  id : String
  name : String
  species : String
  unitPrice : Int
  chosenQuantity : Int
  deriving Repr, DecidableEq

/-- The singleton `ShoppingCart` record (`id`, `totalPrice`, `numActionFigures`). -/
structure ShoppingCart where
  id : String
  totalPrice : Int
  numActionFigures : Int
  deriving Repr, DecidableEq

/-- The in-memory cache: all character records plus the optional cart record. -/
structure Store where
  characters : List Character
  shoppingCart : Option ShoppingCart
  deriving Repr, DecidableEq

/-- Function `initLocalCache` from `local-cache.ts`: writes the shopping cart with
`id = btoa('ShoppingCart:1')`, `totalPrice = 0`, `numActionFigures = 0`. -/
def initLocalCache (s : Store) : Store :=
  { s with
    shoppingCart := some { id := "U2hvcHBpbmdDYXJ0OjE=", totalPrice := 0, numActionFigures := 0 } }

/-- Resolver `setUnitPrice` from `set-unit-price.resolver.ts`: a `switch` on
`root.name` returning 10 for "Rick Sanchez" and "Morty Smith", 5 otherwise. -/
def setUnitPrice (name : String) : Int :=
  if name = "Rick Sanchez" then 10
  else if name = "Morty Smith" then 10
  else 5

/-- The `Character.chosenQuantity` local field resolver: `() => 0`. -/
def chosenQuantityDefault : Int := 0

/-- Lookup `getCharacterFromCache`: `cache.readFragment` keyed by the character id. -/
def getCharacterFromCache (id : String) (s : Store) : Option Character :=
  s.characters.find? (fun x => x.id == id)

/-- Write primitive `cache.writeFragment` keyed by a character id: overwrite the record with
that id, inserting it when no record has the id. -/
def writeCharacterFragment (key : String) (data : Character) (cs : List Character) :
    List Character :=
  if cs.any (fun x => x.id == key) then
    cs.map (fun x => if x.id == key then data else x)
  else cs ++ [data]

/-- Query `getShoppingCart`: `cache.readQuery` of the singleton cart. -/
def getShoppingCart (s : Store) : Option ShoppingCart :=
  s.shoppingCart

/-- Helper `updateCharacter` of `increase-chosen-quantity.resolver.ts`: write the
character back with `chosenQuantity = character.chosenQuantity + 1`. -/
def updateCharacterInc (character : Character) (s : Store) : Store :=
  { s with
    characters := writeCharacterFragment character.id
      { character with chosenQuantity := character.chosenQuantity + 1 } s.characters }

/-- Helper `updateShoppingCart` of `increase-chosen-quantity.resolver.ts`: read the
cart; if absent return (`return false`, a value its caller discards) without
writing; otherwise write it back with `numActionFigures + 1` and
`totalPrice + character.unitPrice`. -/
def updateShoppingCartInc (character : Character) (s : Store) : Store :=
  match getShoppingCart s with
  | none => s
  | some shoppingCart =>
    { s with
      shoppingCart := some
        { shoppingCart with
          numActionFigures := shoppingCart.numActionFigures + 1,
          totalPrice := shoppingCart.totalPrice + character.unitPrice } }

/-- Resolver `increaseChosenQuantity`: look up the character; if absent return
`false`; otherwise update the character, update the cart (its return value is
discarded), and return `true`. -/
def increaseChosenQuantity (id : String) (s : Store) : Store × Bool :=
  match getCharacterFromCache id s with
  | none => (s, false)
  | some character =>
    let s1 := updateCharacterInc character s
    let s2 := updateShoppingCartInc character s1
    (s2, true)

/-- Helper `updateCharacter` of `decrease-chosen-quantity.resolver.ts`:
`quantity = chosenQuantity - 1`, clamped to 0 when negative, written back. -/
def updateCharacterDec (character : Character) (s : Store) : Store :=
  let quantity := character.chosenQuantity - 1
  let quantity := if quantity < 0 then 0 else quantity
  { s with
    characters := writeCharacterFragment character.id
      { character with chosenQuantity := quantity } s.characters }

/-- Helper `updateShoppingCart` of `decrease-chosen-quantity.resolver.ts`: read the
cart; if absent return (`return false`, a value its caller discards) without
writing; otherwise write back `numActionFigures - 1` and
`totalPrice - character.unitPrice`, each clamped to 0 when negative. -/
def updateShoppingCartDec (character : Character) (s : Store) : Store :=
  match getShoppingCart s with
  | none => s
  | some shoppingCart =>
    let quantity := shoppingCart.numActionFigures - 1
    let quantity := if quantity < 0 then 0 else quantity
    let price := shoppingCart.totalPrice - character.unitPrice
    let price := if price < 0 then 0 else price
    { s with
      shoppingCart := some
        { shoppingCart with numActionFigures := quantity, totalPrice := price } }

/-- Resolver `decreaseChosenQuantity`: look up the character; if absent return
`false`; otherwise update the character, update the cart (its return value is
discarded), and return `true`. -/
def decreaseChosenQuantity (id : String) (s : Store) : Store × Bool :=
  match getCharacterFromCache id s with
  | none => (s, false)
  | some character =>
    let s1 := updateCharacterDec character s
    let s2 := updateShoppingCartDec character s1
    (s2, true)

/-- One user-triggered mutation. -/
inductive Op where
  | increase (id : String)
  | decrease (id : String)
  deriving Repr, DecidableEq

/-- The store transition of one mutation (the returned boolean is dropped,
as the view layer drops it). -/
def applyOp (s : Store) : Op → Store
  | Op.increase id => (increaseChosenQuantity id s).1
  | Op.decrease id => (decreaseChosenQuantity id s).1

/-- Run a sequence of mutations. -/
def runOps (s : Store) (ops : List Op) : Store :=
  ops.foldl applyOp s

/-- A store fresh from application start: the cart was written by
`initLocalCache` (zero values) and every character record carries the local
field defaults — `chosenQuantity = 0` (the `() => 0` resolver) and
`unitPrice` computed by `setUnitPrice` from its name. -/
def isInitialStore (s : Store) : Prop :=
  (∀ c ∈ s.characters, c.chosenQuantity = 0 ∧ c.unitPrice = setUnitPrice c.name) ∧
  s.shoppingCart = (initLocalCache s).shoppingCart

instance (s : Store) : Decidable (isInitialStore s) := by
  unfold isInitialStore
  exact inferInstance

/-- All quantities, prices and cart fields in the store are non-negative. -/
def nonNegStore (s : Store) : Prop :=
  (∀ c ∈ s.characters, 0 ≤ c.chosenQuantity ∧ 0 ≤ c.unitPrice) ∧
  (∀ cart, s.shoppingCart = some cart → 0 ≤ cart.totalPrice ∧ 0 ≤ cart.numActionFigures)

instance (s : Store) : Decidable (nonNegStore s) := by
  unfold nonNegStore
  exact inferInstance

/-- The sum `Σ unitPrice_i × chosenQuantity_i` over all character records. -/
def sumPrices (cs : List Character) : Int :=
  (cs.map (fun c => c.unitPrice * c.chosenQuantity)).sum

/-- The sum `Σ chosenQuantity_i` over all character records. -/
def sumQuantities (cs : List Character) : Int :=
  (cs.map (fun c => c.chosenQuantity)).sum

/-- The cart record exists and its two running totals agree with the sums
over all character records. -/
def cartConsistent (s : Store) : Prop :=
  ∃ cart, s.shoppingCart = some cart ∧
    cart.totalPrice = sumPrices s.characters ∧
    cart.numActionFigures = sumQuantities s.characters

instance (s : Store) : Decidable (cartConsistent s) :=
  match hsc : s.shoppingCart with
  | none =>
    isFalse (by
      rintro ⟨cart, hc, -⟩
      rw [hsc] at hc
      exact Option.noConfusion hc)
  | some cart =>
    if h : cart.totalPrice = sumPrices s.characters ∧
        cart.numActionFigures = sumQuantities s.characters then
      isTrue ⟨cart, hsc, h⟩
    else
      isFalse (by
        rintro ⟨cart', hc, h1, h2⟩
        rw [hsc] at hc
        cases Option.some.inj hc
        exact h ⟨h1, h2⟩)

/-- The cache keys its records: no two character records share an id. -/
def uniqueIds (s : Store) : Prop :=
  (s.characters.map Character.id).Nodup

instance (s : Store) : Decidable (uniqueIds s) := by
  unfold uniqueIds
  exact inferInstance

/-! ### Helper lemmas about cache reads and writes -/

lemma id_eq_of_getCharacter {id : String} {s : Store} {c : Character}
    (h : getCharacterFromCache id s = some c) : c.id = id := by
  unfold getCharacterFromCache at h
  have hp := List.find?_some h
  simpa using hp

lemma mem_of_getCharacter {id : String} {s : Store} {c : Character}
    (h : getCharacterFromCache id s = some c) : c ∈ s.characters :=
  List.mem_of_find?_eq_some h

/-- When a record with the key is present, `writeCharacterFragment` is the
pointwise overwrite. -/
lemma write_of_found {id : String} {cs : List Character} {c : Character}
    (h : cs.find? (fun x => x.id == id) = some c) (data : Character) :
    writeCharacterFragment id data cs
      = cs.map (fun x => if x.id == id then data else x) := by
  have h1 := List.mem_of_find?_eq_some h
  have h2 := List.find?_some h
  unfold writeCharacterFragment
  rw [if_pos]
  rw [List.any_eq_true]
  exact ⟨c, h1, h2⟩

/-- Looking up the written key after a pointwise overwrite finds the new data. -/
lemma find?_map_if {α : Type} (p : α → Bool) (data : α) (hdata : p data = true) :
    ∀ (cs : List α) (c : α), cs.find? p = some c →
      (cs.map (fun x => if p x then data else x)).find? p = some data := by
  intro cs
  induction cs with
  | nil => intro c h; simp at h
  | cons x xs ih =>
    intro c h
    by_cases hx : p x = true
    · simp [hx, hdata]
    · rw [List.find?_cons_of_neg _ hx] at h
      simpa [hx] using ih c h

/-- A pointwise overwrite does not change lookups under any other predicate
that rejects both the overwritten records and the new data. -/
lemma find?_map_if_ne {α : Type} (p q : α → Bool) (data : α) (hd : q data = false)
    (hpq : ∀ x, p x = true → q x = false) (cs : List α) :
    (cs.map (fun x => if p x then data else x)).find? q = cs.find? q := by
  induction cs with
  | nil => rfl
  | cons x xs ih =>
    by_cases hx : p x = true
    · have hqx := hpq x hx
      simp [hx, hd, hqx, ih]
    · by_cases hq : q x = true
      · simp [hx, hq]
      · simp [hx, hq, ih]

/-- Every record after a write was already present or is the written data. -/
lemma mem_write {key : String} {data x : Character} {cs : List Character}
    (hx : x ∈ writeCharacterFragment key data cs) : x ∈ cs ∨ x = data := by
  unfold writeCharacterFragment at hx
  by_cases hany : cs.any (fun y => y.id == key) = true
  · rw [if_pos hany] at hx
    rcases List.mem_map.1 hx with ⟨y, hy, hxy⟩
    by_cases hpy : (y.id == key) = true
    · right
      rw [← hxy]
      simp [hpy]
    · left
      rw [← hxy]
      simpa [hpy] using hy
  · rw [if_neg hany] at hx
    rcases List.mem_append.1 hx with h | h
    · left; exact h
    · right; simpa using h

/-- A pointwise overwrite is the identity when no record matches. -/
lemma map_if_of_none {α : Type} (p : α → Bool) (data : α) :
    ∀ (xs : List α), (∀ y ∈ xs, p y = false) →
      xs.map (fun x => if p x then data else x) = xs := by
  intro xs hxs
  induction xs with
  | nil => rfl
  | cons y ys ih =>
    have hy : p y = false := hxs y (by simp)
    have hys : ∀ z ∈ ys, p z = false := fun z hz => hxs z (by simp [hz])
    simp [hy, ih hys]

/-- With unique ids, overwriting the found record changes a mapped sum by
exactly the difference at that record. -/
lemma sum_map_write (f : Character → Int) (id : String) (data : Character) :
    ∀ (cs : List Character) (c : Character),
      cs.find? (fun x => x.id == id) = some c →
      (cs.map Character.id).Nodup →
      ((cs.map (fun x => if x.id == id then data else x)).map f).sum
        = (cs.map f).sum + f data - f c := by
  intro cs
  induction cs with
  | nil => intro c h _; simp at h
  | cons x xs ih =>
    intro c h hnd
    rw [List.map_cons, List.nodup_cons] at hnd
    by_cases hx : (x.id == id) = true
    · have hc : c = x := by
        rw [List.find?_cons_of_pos (p := fun y : Character => y.id == id) _ hx] at h
        exact (Option.some.inj h).symm
      have hxs : ∀ y ∈ xs, (y.id == id) = false := by
        intro y hy
        rw [beq_eq_false_iff_ne]
        intro hyid
        apply hnd.1
        rw [beq_iff_eq] at hx
        rw [hx, ← hyid]
        exact List.mem_map_of_mem _ hy
      have htail : List.map (fun y => if (y.id == id) = true then data else y) xs = xs :=
        map_if_of_none _ _ _ hxs
      rw [hc, List.map_cons, if_pos hx, htail, List.map_cons, List.sum_cons, List.map_cons,
        List.sum_cons]
      ring
    · rw [List.find?_cons_of_neg (p := fun y : Character => y.id == id) _ hx] at h
      rw [List.map_cons, if_neg hx, List.map_cons, List.sum_cons, List.map_cons, List.sum_cons,
        ih c h hnd.2]
      ring


/-- Under unique ids, no tail record matches the head's id. -/
lemma no_match_tail {x : Character} {xs : List Character} {id : String}
    (hx : (x.id == id) = true) (hnd : x.id ∉ xs.map Character.id) :
    ∀ y ∈ xs, (y.id == id) = false := by
  intro y hy
  rw [beq_eq_false_iff_ne]
  intro hyid
  apply hnd
  rw [beq_iff_eq] at hx
  rw [hx, ← hyid]
  exact List.mem_map_of_mem _ hy

/-- Overwriting a key twice keeps only the second write. -/
lemma map_write_write {α : Type} (p : α → Bool) (d₁ d₂ : α) (h₁ : p d₁ = true) (cs : List α) :
    (cs.map (fun x => if p x then d₁ else x)).map (fun x => if p x then d₂ else x)
      = cs.map (fun x => if p x then d₂ else x) := by
  induction cs with
  | nil => rfl
  | cons x xs ih =>
    by_cases hx : p x = true
    · simp [hx, h₁, ih]
    · simp [hx, ih]

/-- With unique ids, overwriting the found record with itself is the identity. -/
lemma map_write_found_self (id : String) :
    ∀ (cs : List Character) (c : Character),
      cs.find? (fun x => x.id == id) = some c →
      (cs.map Character.id).Nodup →
      cs.map (fun x => if x.id == id then c else x) = cs := by
  intro cs
  induction cs with
  | nil => intro c h _; simp at h
  | cons x xs ih =>
    intro c h hnd
    rw [List.map_cons, List.nodup_cons] at hnd
    by_cases hx : (x.id == id) = true
    · have hc : c = x := by
        rw [List.find?_cons_of_pos (p := fun y : Character => y.id == id) _ hx] at h
        exact (Option.some.inj h).symm
      have htail : List.map (fun y => if (y.id == id) = true then c else y) xs = xs :=
        map_if_of_none _ _ _ (no_match_tail hx hnd.1)
      rw [List.map_cons, if_pos hx, htail, hc]
    · rw [List.find?_cons_of_neg (p := fun y : Character => y.id == id) _ hx] at h
      rw [List.map_cons, if_neg hx, ih c h hnd.2]

/-! ### Unfolding lemmas for the two resolvers -/

lemma increase_found {id : String} {s : Store} {c : Character}
    (hc : getCharacterFromCache id s = some c) :
    increaseChosenQuantity id s
      = (updateShoppingCartInc c (updateCharacterInc c s), true) := by
  unfold increaseChosenQuantity
  rw [hc]

lemma decrease_found {id : String} {s : Store} {c : Character}
    (hc : getCharacterFromCache id s = some c) :
    decreaseChosenQuantity id s
      = (updateShoppingCartDec c (updateCharacterDec c s), true) := by
  unfold decreaseChosenQuantity
  rw [hc]

lemma updateCharacterInc_shoppingCart (c : Character) (s : Store) :
    (updateCharacterInc c s).shoppingCart = s.shoppingCart := rfl

lemma updateCharacterDec_shoppingCart (c : Character) (s : Store) :
    (updateCharacterDec c s).shoppingCart = s.shoppingCart := rfl

lemma updateShoppingCartInc_characters (c : Character) (s : Store) :
    (updateShoppingCartInc c s).characters = s.characters := by
  rcases s with ⟨cs, sc⟩
  cases sc <;> rfl

lemma updateShoppingCartDec_characters (c : Character) (s : Store) :
    (updateShoppingCartDec c s).characters = s.characters := by
  rcases s with ⟨cs, sc⟩
  cases sc <;> rfl

lemma updateShoppingCartInc_cart (c : Character) (s : Store) (cart : ShoppingCart)
    (h : s.shoppingCart = some cart) :
    (updateShoppingCartInc c s).shoppingCart
      = some { cart with
          numActionFigures := cart.numActionFigures + 1,
          totalPrice := cart.totalPrice + c.unitPrice } := by
  unfold updateShoppingCartInc getShoppingCart
  rw [h]

lemma updateShoppingCartInc_cart_none (c : Character) (s : Store)
    (h : s.shoppingCart = none) : updateShoppingCartInc c s = s := by
  unfold updateShoppingCartInc getShoppingCart
  rw [h]

lemma updateShoppingCartDec_cart (c : Character) (s : Store) (cart : ShoppingCart)
    (h : s.shoppingCart = some cart) :
    (updateShoppingCartDec c s).shoppingCart
      = some { cart with
          numActionFigures :=
            if cart.numActionFigures - 1 < 0 then 0 else cart.numActionFigures - 1,
          totalPrice :=
            if cart.totalPrice - c.unitPrice < 0 then 0 else cart.totalPrice - c.unitPrice } := by
  unfold updateShoppingCartDec getShoppingCart
  rw [h]

lemma updateShoppingCartDec_cart_none (c : Character) (s : Store)
    (h : s.shoppingCart = none) : updateShoppingCartDec c s = s := by
  unfold updateShoppingCartDec getShoppingCart
  rw [h]

/-- The clamp written as `if q < 0 then 0 else q` is `max q 0`. -/
lemma clamp_eq_max (q : Int) : (if q < 0 then 0 else q) = max q 0 := by
  rcases le_or_lt 0 q with h | h
  · rw [if_neg (by omega), max_eq_left h]
  · rw [if_pos h, max_eq_right (by omega)]

lemma clamp_nonneg (q : Int) : 0 ≤ if q < 0 then 0 else q := by
  split <;> omega

lemma setUnitPrice_nonneg (name : String) : 0 ≤ setUnitPrice name := by
  unfold setUnitPrice
  split
  · norm_num
  · split <;> norm_num

lemma store_eq_of_fields {a b : Store} (h1 : a.characters = b.characters)
    (h2 : a.shoppingCart = b.shoppingCart) : a = b := by
  cases a
  cases b
  cases h1
  cases h2
  rfl

lemma updateCharacterInc_characters (c : Character) (s : Store) :
    (updateCharacterInc c s).characters
      = writeCharacterFragment c.id { c with chosenQuantity := c.chosenQuantity + 1 }
          s.characters := rfl

lemma updateCharacterDec_characters (c : Character) (s : Store) :
    (updateCharacterDec c s).characters
      = writeCharacterFragment c.id
          { c with chosenQuantity :=
              if c.chosenQuantity - 1 < 0 then 0 else c.chosenQuantity - 1 }
          s.characters := rfl

/-- Looking up the written key after `writeCharacterFragment` finds the data. -/
lemma getCharacter_after_write {id : String} {cs : List Character} {c data : Character}
    (h : cs.find? (fun x => x.id == id) = some c) (hd : data.id = id) :
    (writeCharacterFragment id data cs).find? (fun x => x.id == id) = some data := by
  rw [write_of_found h data]
  exact find?_map_if _ data (by simp [hd]) cs c h

/-- Writes under one key do not change lookups under another key. -/
lemma getCharacter_other_after_write {id idq : String} {cs : List Character}
    {c data : Character} (h : cs.find? (fun x => x.id == id) = some c)
    (hd : data.id = id) (hne : idq ≠ id) :
    (writeCharacterFragment id data cs).find? (fun x => x.id == idq)
      = cs.find? (fun x => x.id == idq) := by
  rw [write_of_found h data]
  apply find?_map_if_ne
  · rw [hd, beq_eq_false_iff_ne]
    exact fun hh => hne hh.symm
  · intro x hx
    rw [beq_iff_eq] at hx
    rw [hx, beq_eq_false_iff_ne]
    exact fun hh => hne hh.symm

/-- The character lookup after a successful increase. -/
lemma lookup_after_inc {id : String} {s : Store} {c : Character}
    (hc : getCharacterFromCache id s = some c) :
    getCharacterFromCache id (updateShoppingCartInc c (updateCharacterInc c s))
      = some { c with chosenQuantity := c.chosenQuantity + 1 } := by
  have hcid : c.id = id := id_eq_of_getCharacter hc
  unfold getCharacterFromCache at hc ⊢
  rw [updateShoppingCartInc_characters, updateCharacterInc_characters, hcid]
  exact getCharacter_after_write hc rfl

/-- The character lookup after a successful decrease. -/
lemma lookup_after_dec {id : String} {s : Store} {c : Character}
    (hc : getCharacterFromCache id s = some c) :
    getCharacterFromCache id (updateShoppingCartDec c (updateCharacterDec c s))
      = some { c with chosenQuantity :=
          if c.chosenQuantity - 1 < 0 then 0 else c.chosenQuantity - 1 } := by
  have hcid : c.id = id := id_eq_of_getCharacter hc
  unfold getCharacterFromCache at hc ⊢
  rw [updateShoppingCartDec_characters, updateCharacterDec_characters, hcid]
  exact getCharacter_after_write hc rfl

/-! ### Concrete stores used to instantiate the theorems -/

/-- Character "Rick Sanchez" with one chosen action figure. -/
def rick : Character :=
  { id := "1", name := "Rick Sanchez", species := "Human", unitPrice := 10, chosenQuantity := 1 }

/-- Character "Summer Smith" with no chosen action figure. -/
def summer : Character :=
  { id := "3", name := "Summer Smith", species := "Human", unitPrice := 5, chosenQuantity := 0 }

/-- Character "Rick Sanchez" with no chosen action figure. -/
def rick0 : Character := { rick with chosenQuantity := 0 }

/-- A store with two characters and a consistent cart. -/
def exStore : Store :=
  { characters := [rick, summer],
    shoppingCart := some { id := "cart1", totalPrice := 10, numActionFigures := 1 } }

/-- A store holding one character but no cart record. -/
def cartlessStore : Store :=
  { characters := [rick0], shoppingCart := none }

/-- A store with no records at all. -/
def emptyStore : Store := { characters := [], shoppingCart := none }

lemma increase_not_found {id : String} {s : Store}
    (h : getCharacterFromCache id s = none) : increaseChosenQuantity id s = (s, false) := by
  unfold increaseChosenQuantity
  rw [h]

lemma decrease_not_found {id : String} {s : Store}
    (h : getCharacterFromCache id s = none) : decreaseChosenQuantity id s = (s, false) := by
  unfold decreaseChosenQuantity
  rw [h]

lemma sumPrices_write {id : String} {cs : List Character} {c : Character} (data : Character)
    (hc : cs.find? (fun x => x.id == id) = some c) (hnd : (cs.map Character.id).Nodup) :
    sumPrices (writeCharacterFragment id data cs)
      = sumPrices cs + data.unitPrice * data.chosenQuantity
        - c.unitPrice * c.chosenQuantity := by
  unfold sumPrices
  rw [write_of_found hc data]
  exact sum_map_write _ id data cs c hc hnd

lemma sumQuantities_write {id : String} {cs : List Character} {c : Character} (data : Character)
    (hc : cs.find? (fun x => x.id == id) = some c) (hnd : (cs.map Character.id).Nodup) :
    sumQuantities (writeCharacterFragment id data cs)
      = sumQuantities cs + data.chosenQuantity - c.chosenQuantity := by
  unfold sumQuantities
  rw [write_of_found hc data]
  exact sum_map_write _ id data cs c hc hnd

/-- One mutation keeps every quantity, price and cart field non-negative. -/
lemma nonNeg_applyOp (s : Store) (op : Op) (h : nonNegStore s) :
    nonNegStore (applyOp s op) := by
  cases op with
  | increase id =>
    show nonNegStore (increaseChosenQuantity id s).1
    cases hc : getCharacterFromCache id s with
    | none =>
      rw [show (increaseChosenQuantity id s).1 = s from by rw [increase_not_found hc]]
      exact h
    | some c =>
      rw [show (increaseChosenQuantity id s).1
            = updateShoppingCartInc c (updateCharacterInc c s) from by rw [increase_found hc]]
      have hcmem := mem_of_getCharacter hc
      constructor
      · intro x hx
        rw [updateShoppingCartInc_characters, updateCharacterInc_characters] at hx
        rcases mem_write hx with hmem | rfl
        · exact h.1 x hmem
        · constructor
          · show (0 : Int) ≤ c.chosenQuantity + 1
            have h1 := (h.1 c hcmem).1
            omega
          · exact (h.1 c hcmem).2
      · intro cart hcart
        cases hsc : s.shoppingCart with
        | none =>
          rw [updateShoppingCartInc_cart_none _ _
              (by rw [updateCharacterInc_shoppingCart]; exact hsc),
            updateCharacterInc_shoppingCart, hsc] at hcart
          exact Option.noConfusion hcart
        | some cart0 =>
          rw [updateShoppingCartInc_cart c _ cart0
            (by rw [updateCharacterInc_shoppingCart]; exact hsc)] at hcart
          obtain rfl := Option.some.inj hcart
          constructor
          · show (0 : Int) ≤ cart0.totalPrice + c.unitPrice
            have h1 := (h.2 cart0 hsc).1
            have h2 := (h.1 c hcmem).2
            omega
          · show (0 : Int) ≤ cart0.numActionFigures + 1
            have h1 := (h.2 cart0 hsc).2
            omega
  | decrease id =>
    show nonNegStore (decreaseChosenQuantity id s).1
    cases hc : getCharacterFromCache id s with
    | none =>
      rw [show (decreaseChosenQuantity id s).1 = s from by rw [decrease_not_found hc]]
      exact h
    | some c =>
      rw [show (decreaseChosenQuantity id s).1
            = updateShoppingCartDec c (updateCharacterDec c s) from by rw [decrease_found hc]]
      have hcmem := mem_of_getCharacter hc
      constructor
      · intro x hx
        rw [updateShoppingCartDec_characters, updateCharacterDec_characters] at hx
        rcases mem_write hx with hmem | rfl
        · exact h.1 x hmem
        · exact ⟨clamp_nonneg _, (h.1 c hcmem).2⟩
      · intro cart hcart
        cases hsc : s.shoppingCart with
        | none =>
          rw [updateShoppingCartDec_cart_none _ _
              (by rw [updateCharacterDec_shoppingCart]; exact hsc),
            updateCharacterDec_shoppingCart, hsc] at hcart
          exact Option.noConfusion hcart
        | some cart0 =>
          rw [updateShoppingCartDec_cart c _ cart0
            (by rw [updateCharacterDec_shoppingCart]; exact hsc)] at hcart
          obtain rfl := Option.some.inj hcart
          exact ⟨clamp_nonneg _, clamp_nonneg _⟩

/-- Any sequence of mutations keeps the store non-negative. -/
lemma nonNeg_runOps (ops : List Op) : ∀ s : Store, nonNegStore s → nonNegStore (runOps s ops) := by
  induction ops with
  | nil => intro s h; exact h
  | cons op ops ih =>
    intro s h
    exact ih (applyOp s op) (nonNeg_applyOp s op h)

/-! ### Claim theorems -/

/-- C3: for every store state and every character identifier that is not
present in the store, `increaseChosenQuantity` and `decreaseChosenQuantity`
return boolean `false` and leave the entire store state (every character
record and the cart) unchanged. -/
theorem mutation_on_absent_character_fails_unchanged (id : String) (s : Store)
    (h : getCharacterFromCache id s = none) :
    increaseChosenQuantity id s = (s, false) ∧
    decreaseChosenQuantity id s = (s, false) := by
  unfold increaseChosenQuantity decreaseChosenQuantity
  rw [h]
  exact ⟨rfl, rfl⟩

theorem mutation_on_absent_character_fails_unchanged_witness :
    getCharacterFromCache "42" emptyStore = none ∧
    increaseChosenQuantity "42" emptyStore = (emptyStore, false) ∧
    decreaseChosenQuantity "42" emptyStore = (emptyStore, false) :=
  ⟨by decide, mutation_on_absent_character_fails_unchanged "42" emptyStore (by decide)⟩

/-- C8: the unit-price resolver is a total function over character names,
returning 10 for "Rick Sanchez" and "Morty Smith" and 5 for every other
name, "Summer Smith" included.  (`setUnitPrice` is a pure total Lean
function, so totality and absence of side effects hold by construction.) -/
theorem setUnitPrice_total_lookup :
    setUnitPrice "Rick Sanchez" = 10 ∧ setUnitPrice "Morty Smith" = 10 ∧
    setUnitPrice "Summer Smith" = 5 ∧
    ∀ name, name ≠ "Rick Sanchez" → name ≠ "Morty Smith" → setUnitPrice name = 5 := by
  refine ⟨by decide, by decide, by decide, ?_⟩
  intro n h1 h2
  unfold setUnitPrice
  rw [if_neg h1, if_neg h2]

theorem setUnitPrice_total_lookup_witness :
    ("Birdperson" : String) ≠ "Rick Sanchez" ∧ ("Birdperson" : String) ≠ "Morty Smith" ∧
    setUnitPrice "Birdperson" = 5 :=
  ⟨by decide, by decide, setUnitPrice_total_lookup.2.2.2 "Birdperson" (by decide) (by decide)⟩

/-- C10: both mutation resolvers are deterministic — equal starting stores and
equal identifiers give equal resulting stores and equal returned booleans. -/
theorem resolvers_deterministic (s₁ s₂ : Store) (id₁ id₂ : String)
    (hs : s₁ = s₂) (hid : id₁ = id₂) :
    increaseChosenQuantity id₁ s₁ = increaseChosenQuantity id₂ s₂ ∧
    decreaseChosenQuantity id₁ s₁ = decreaseChosenQuantity id₂ s₂ := by
  subst hs
  subst hid
  exact ⟨rfl, rfl⟩

theorem resolvers_deterministic_witness :
    increaseChosenQuantity "1" exStore = increaseChosenQuantity "1" exStore ∧
    decreaseChosenQuantity "1" exStore = decreaseChosenQuantity "1" exStore :=
  resolvers_deterministic exStore exStore "1" "1" rfl rfl

/-- C2 counterexample: in `cartlessStore` the character "1" exists and the
cart record is absent, yet both resolvers return `true`, not `false` — the
inner `updateShoppingCart` returns `false` but the resolver discards that
value.  This refutes the claim that the resolvers return `false` here. -/
theorem cart_absent_returns_true_cex :
    getCharacterFromCache "1" cartlessStore = some rick0 ∧
    cartlessStore.shoppingCart = none ∧
    (increaseChosenQuantity "1" cartlessStore).2 = true ∧
    (decreaseChosenQuantity "1" cartlessStore).2 = true := by
  refine ⟨by decide, by decide, by decide, by decide⟩

/-- C2 amended: when the identified character exists but the cart record is
absent, both resolvers return boolean `true` (the failure signalled inside
`updateShoppingCart` is discarded), the character's quantity update is
applied (not rolled back), and the cart stays absent. -/
theorem cart_absent_update_applied (id : String) (s : Store) (c : Character)
    (hc : getCharacterFromCache id s = some c) (hcart : s.shoppingCart = none) :
    (increaseChosenQuantity id s).2 = true ∧
    (increaseChosenQuantity id s).1.shoppingCart = none ∧
    getCharacterFromCache id (increaseChosenQuantity id s).1
      = some { c with chosenQuantity := c.chosenQuantity + 1 } ∧
    (decreaseChosenQuantity id s).2 = true ∧
    (decreaseChosenQuantity id s).1.shoppingCart = none ∧
    getCharacterFromCache id (decreaseChosenQuantity id s).1
      = some { c with chosenQuantity :=
          if c.chosenQuantity - 1 < 0 then 0 else c.chosenQuantity - 1 } := by
  rw [increase_found hc, decrease_found hc]
  have hinc : (updateCharacterInc c s).shoppingCart = none := by
    rw [updateCharacterInc_shoppingCart]
    exact hcart
  have hdec : (updateCharacterDec c s).shoppingCart = none := by
    rw [updateCharacterDec_shoppingCart]
    exact hcart
  refine ⟨rfl, ?_, ?_, rfl, ?_, ?_⟩
  · rw [updateShoppingCartInc_cart_none _ _ hinc]
    exact hinc
  · exact lookup_after_inc hc
  · rw [updateShoppingCartDec_cart_none _ _ hdec]
    exact hdec
  · exact lookup_after_dec hc

theorem cart_absent_update_applied_witness :
    getCharacterFromCache "1" cartlessStore = some rick0 ∧
    cartlessStore.shoppingCart = none ∧
    ((increaseChosenQuantity "1" cartlessStore).2 = true ∧
      (increaseChosenQuantity "1" cartlessStore).1.shoppingCart = none ∧
      getCharacterFromCache "1" (increaseChosenQuantity "1" cartlessStore).1
        = some { rick0 with chosenQuantity := rick0.chosenQuantity + 1 } ∧
      (decreaseChosenQuantity "1" cartlessStore).2 = true ∧
      (decreaseChosenQuantity "1" cartlessStore).1.shoppingCart = none ∧
      getCharacterFromCache "1" (decreaseChosenQuantity "1" cartlessStore).1
        = some { rick0 with chosenQuantity :=
            if rick0.chosenQuantity - 1 < 0 then 0 else rick0.chosenQuantity - 1 }) :=
  ⟨by decide, by decide,
    cart_absent_update_applied "1" cartlessStore rick0 (by decide) (by decide)⟩

/-- C4: when the identified character and the cart both exist, increase sets
the character's `chosenQuantity` to `chosenQuantity + 1` (no upper bound, no
clamp), the cart's `totalPrice` to `totalPrice + unitPrice` and
`numActionFigures` to `numActionFigures + 1`, and returns `true`. -/
theorem increase_success_spec (id : String) (s : Store) (c : Character)
    (cart : ShoppingCart) (hc : getCharacterFromCache id s = some c)
    (hcart : s.shoppingCart = some cart) :
    (increaseChosenQuantity id s).2 = true ∧
    getCharacterFromCache id (increaseChosenQuantity id s).1
      = some { c with chosenQuantity := c.chosenQuantity + 1 } ∧
    (increaseChosenQuantity id s).1.shoppingCart
      = some { cart with
          totalPrice := cart.totalPrice + c.unitPrice,
          numActionFigures := cart.numActionFigures + 1 } := by
  rw [increase_found hc]
  refine ⟨rfl, lookup_after_inc hc, ?_⟩
  exact updateShoppingCartInc_cart c _ cart
    (by rw [updateCharacterInc_shoppingCart]; exact hcart)

theorem increase_success_spec_witness :
    getCharacterFromCache "1" exStore = some rick ∧
    exStore.shoppingCart = some { id := "cart1", totalPrice := 10, numActionFigures := 1 } ∧
    ((increaseChosenQuantity "1" exStore).2 = true ∧
      getCharacterFromCache "1" (increaseChosenQuantity "1" exStore).1
        = some { rick with chosenQuantity := rick.chosenQuantity + 1 } ∧
      (increaseChosenQuantity "1" exStore).1.shoppingCart
        = some { id := "cart1", totalPrice := 10 + rick.unitPrice,
                 numActionFigures := 1 + 1 }) :=
  ⟨by decide, by decide,
    increase_success_spec "1" exStore rick
      { id := "cart1", totalPrice := 10, numActionFigures := 1 } (by decide) (by decide)⟩

/-- C5: when the identified character and the cart both exist, decrease sets
the character's `chosenQuantity` to `max (chosenQuantity - 1) 0`, the cart's
`totalPrice` to `max (totalPrice - unitPrice) 0` and `numActionFigures` to
`max (numActionFigures - 1) 0`; a quantity already at 0 stays 0, and neither
cart field ever drops below zero. -/
theorem decrease_clamped_spec (id : String) (s : Store) (c : Character)
    (cart : ShoppingCart) (hc : getCharacterFromCache id s = some c)
    (hcart : s.shoppingCart = some cart) :
    getCharacterFromCache id (decreaseChosenQuantity id s).1
      = some { c with chosenQuantity := max (c.chosenQuantity - 1) 0 } ∧
    (decreaseChosenQuantity id s).1.shoppingCart
      = some { cart with
          totalPrice := max (cart.totalPrice - c.unitPrice) 0,
          numActionFigures := max (cart.numActionFigures - 1) 0 } ∧
    (c.chosenQuantity = 0 → max (c.chosenQuantity - 1) 0 = 0) ∧
    0 ≤ max (cart.totalPrice - c.unitPrice) 0 ∧
    0 ≤ max (cart.numActionFigures - 1) 0 := by
  rw [decrease_found hc]
  refine ⟨?_, ?_, ?_, le_max_right _ _, le_max_right _ _⟩
  · rw [lookup_after_dec hc, clamp_eq_max]
  · rw [updateShoppingCartDec_cart c _ cart
      (by rw [updateCharacterDec_shoppingCart]; exact hcart)]
    rw [clamp_eq_max, clamp_eq_max]
  · intro h0
    rw [h0]
    decide

/-- C9: when the identified character exists, either mutation touches only the
identified character record and the singleton cart: every other character
lookup is unchanged, and the updated character record keeps its `id`, `name`,
`species` (standing for all remaining fields) and `unitPrice`.  (The store
holds nothing besides character records and the cart, so nothing else can
change.) -/
theorem mutation_frame_effect (id : String) (s : Store) (c : Character)
    (hc : getCharacterFromCache id s = some c) :
    (∀ idq, idq ≠ id →
      getCharacterFromCache idq (increaseChosenQuantity id s).1
        = getCharacterFromCache idq s ∧
      getCharacterFromCache idq (decreaseChosenQuantity id s).1
        = getCharacterFromCache idq s) ∧
    (∃ cInc, getCharacterFromCache id (increaseChosenQuantity id s).1 = some cInc ∧
      cInc.id = c.id ∧ cInc.name = c.name ∧ cInc.species = c.species ∧
      cInc.unitPrice = c.unitPrice) ∧
    (∃ cDec, getCharacterFromCache id (decreaseChosenQuantity id s).1 = some cDec ∧
      cDec.id = c.id ∧ cDec.name = c.name ∧ cDec.species = c.species ∧
      cDec.unitPrice = c.unitPrice) := by
  have hcid := id_eq_of_getCharacter hc
  have hc' : s.characters.find? (fun x => x.id == id) = some c := hc
  have hc'' : s.characters.find? (fun x => x.id == c.id) = some c := by
    rw [hcid]
    exact hc'
  rw [show (increaseChosenQuantity id s).1
        = updateShoppingCartInc c (updateCharacterInc c s) from by rw [increase_found hc],
    show (decreaseChosenQuantity id s).1
        = updateShoppingCartDec c (updateCharacterDec c s) from by rw [decrease_found hc]]
  refine ⟨?_, ?_, ?_⟩
  · intro idq hne
    have hneq : idq ≠ c.id := by
      rw [hcid]
      exact hne
    constructor
    · show (updateShoppingCartInc c (updateCharacterInc c s)).characters.find?
          (fun x => x.id == idq) = s.characters.find? (fun x => x.id == idq)
      rw [updateShoppingCartInc_characters, updateCharacterInc_characters]
      exact getCharacter_other_after_write hc'' rfl hneq
    · show (updateShoppingCartDec c (updateCharacterDec c s)).characters.find?
          (fun x => x.id == idq) = s.characters.find? (fun x => x.id == idq)
      rw [updateShoppingCartDec_characters, updateCharacterDec_characters]
      exact getCharacter_other_after_write hc'' rfl hneq
  · exact ⟨_, lookup_after_inc hc, rfl, rfl, rfl, rfl⟩
  · exact ⟨_, lookup_after_dec hc, rfl, rfl, rfl, rfl⟩

theorem mutation_frame_effect_witness :
    getCharacterFromCache "1" exStore = some rick ∧
    getCharacterFromCache "3" (increaseChosenQuantity "1" exStore).1
      = getCharacterFromCache "3" exStore ∧
    getCharacterFromCache "3" (decreaseChosenQuantity "1" exStore).1
      = getCharacterFromCache "3" exStore :=
  ⟨by decide,
    ((mutation_frame_effect "1" exStore rick (by decide)).1 "3" (by decide)).1,
    ((mutation_frame_effect "1" exStore rick (by decide)).1 "3" (by decide)).2⟩

/-- C6: from a store with unique ids and non-negative quantities and cart
fields in which the identified character and the cart exist, increase followed
immediately by decrease on the same identifier restores the store — character
record and cart record — exactly. -/
theorem increase_then_decrease_roundtrip (id : String) (s : Store) (c : Character)
    (cart : ShoppingCart) (hc : getCharacterFromCache id s = some c)
    (hcart : s.shoppingCart = some cart) (hnd : uniqueIds s) (hnn : nonNegStore s) :
    (decreaseChosenQuantity id (increaseChosenQuantity id s).1).1 = s := by
  have hcid := id_eq_of_getCharacter hc
  have hc' : s.characters.find? (fun x => x.id == id) = some c := hc
  have hc'' : s.characters.find? (fun x => x.id == c.id) = some c := by
    rw [hcid]
    exact hc'
  have hq0 : 0 ≤ c.chosenQuantity := (hnn.1 c (mem_of_getCharacter hc)).1
  have ht0 : 0 ≤ cart.totalPrice := (hnn.2 cart hcart).1
  have hn0 : 0 ≤ cart.numActionFigures := (hnn.2 cart hcart).2
  have hc1 : getCharacterFromCache id (updateShoppingCartInc c (updateCharacterInc c s))
      = some { c with chosenQuantity := c.chosenQuantity + 1 } := lookup_after_inc hc
  rw [show (increaseChosenQuantity id s).1
        = updateShoppingCartInc c (updateCharacterInc c s) from by rw [increase_found hc]]
  rw [show (decreaseChosenQuantity id (updateShoppingCartInc c (updateCharacterInc c s))).1
        = updateShoppingCartDec { c with chosenQuantity := c.chosenQuantity + 1 }
            (updateCharacterDec { c with chosenQuantity := c.chosenQuantity + 1 }
              (updateShoppingCartInc c (updateCharacterInc c s)))
      from by rw [decrease_found hc1]]
  have hS1chars : (updateShoppingCartInc c (updateCharacterInc c s)).characters
      = s.characters.map
          (fun x => if x.id == c.id then { c with chosenQuantity := c.chosenQuantity + 1 }
            else x) := by
    rw [updateShoppingCartInc_characters, updateCharacterInc_characters]
    exact write_of_found hc'' _
  apply store_eq_of_fields
  · rw [updateShoppingCartDec_characters, updateCharacterDec_characters]
    show writeCharacterFragment c.id
        { c with chosenQuantity :=
            if c.chosenQuantity + 1 - 1 < 0 then 0 else c.chosenQuantity + 1 - 1 }
        (updateShoppingCartInc c (updateCharacterInc c s)).characters
      = s.characters
    rw [show ({ c with chosenQuantity :=
            if c.chosenQuantity + 1 - 1 < 0 then 0 else c.chosenQuantity + 1 - 1 } : Character)
        = c from by
      rw [if_neg (show ¬c.chosenQuantity + 1 - 1 < 0 from by omega),
        show c.chosenQuantity + 1 - 1 = c.chosenQuantity from by omega]]
    rw [hS1chars]
    have hfind1 : (s.characters.map
        (fun x => if x.id == c.id then { c with chosenQuantity := c.chosenQuantity + 1 }
          else x)).find? (fun x => x.id == c.id)
        = some { c with chosenQuantity := c.chosenQuantity + 1 } :=
      find?_map_if _ _ (by simp) s.characters c hc''
    rw [write_of_found hfind1 c]
    have hmw : (s.characters.map
        (fun x => if x.id == c.id then { c with chosenQuantity := c.chosenQuantity + 1 }
          else x)).map (fun x => if x.id == c.id then c else x)
        = s.characters.map (fun x => if x.id == c.id then c else x) :=
      map_write_write _ _ c (by simp) s.characters
    rw [hmw]
    exact map_write_found_self c.id s.characters c hc'' hnd
  · have hcartInc : (updateCharacterDec { c with chosenQuantity := c.chosenQuantity + 1 }
        (updateShoppingCartInc c (updateCharacterInc c s))).shoppingCart
      = some ⟨cart.id, cart.totalPrice + c.unitPrice, cart.numActionFigures + 1⟩ := by
      rw [updateCharacterDec_shoppingCart]
      exact updateShoppingCartInc_cart c _ cart
        (by rw [updateCharacterInc_shoppingCart]; exact hcart)
    rw [updateShoppingCartDec_cart _ _ _ hcartInc]
    show some (⟨cart.id, if cart.totalPrice + c.unitPrice - c.unitPrice < 0 then 0 else cart.totalPrice + c.unitPrice - c.unitPrice, if cart.numActionFigures + 1 - 1 < 0 then 0 else cart.numActionFigures + 1 - 1⟩ : ShoppingCart) = s.shoppingCart
    rw [if_neg (show ¬cart.totalPrice + c.unitPrice - c.unitPrice < 0 from by omega),
      if_neg (show ¬cart.numActionFigures + 1 - 1 < 0 from by omega),
      show cart.totalPrice + c.unitPrice - c.unitPrice = cart.totalPrice from by omega,
      show cart.numActionFigures + 1 - 1 = cart.numActionFigures from by omega,
      hcart]

theorem increase_then_decrease_roundtrip_witness :
    getCharacterFromCache "1" exStore = some rick ∧
    exStore.shoppingCart = some { id := "cart1", totalPrice := 10, numActionFigures := 1 } ∧
    uniqueIds exStore ∧ nonNegStore exStore ∧
    (decreaseChosenQuantity "1" (increaseChosenQuantity "1" exStore).1).1 = exStore :=
  ⟨by decide, by decide, by decide, by decide,
    increase_then_decrease_roundtrip "1" exStore rick
      { id := "cart1", totalPrice := 10, numActionFigures := 1 }
      (by decide) (by decide) (by decide) (by decide)⟩

/-- C7: starting from an initial store (cart written with zeros by
`initLocalCache`, every character carrying the default `chosenQuantity = 0`
and a `setUnitPrice` unit price), any sequence of increase/decrease calls
leaves every `chosenQuantity`, the cart's `totalPrice` and its
`numActionFigures` non-negative. -/
theorem quantities_and_cart_nonneg (s : Store) (ops : List Op) (h : isInitialStore s) :
    (∀ c ∈ (runOps s ops).characters, 0 ≤ c.chosenQuantity) ∧
    (∀ cart, (runOps s ops).shoppingCart = some cart →
      0 ≤ cart.totalPrice ∧ 0 ≤ cart.numActionFigures) := by
  have h0 : nonNegStore s := by
    constructor
    · intro c hcmem
      obtain ⟨h1, h2⟩ := h.1 c hcmem
      constructor
      · rw [h1]
      · rw [h2]
        exact setUnitPrice_nonneg _
    · intro cart hcart
      rw [h.2] at hcart
      have hcart' : some (⟨"U2hvcHBpbmdDYXJ0OjE=", 0, 0⟩ : ShoppingCart) = some cart := hcart
      obtain rfl := Option.some.inj hcart'
      exact ⟨le_refl 0, le_refl 0⟩
  have hall := nonNeg_runOps ops s h0
  exact ⟨fun c hcmem => (hall.1 c hcmem).1, hall.2⟩

theorem quantities_and_cart_nonneg_witness :
    isInitialStore (initLocalCache cartlessStore) ∧
    ((∀ c ∈ (runOps (initLocalCache cartlessStore)
        [Op.increase "1", Op.decrease "1", Op.decrease "1"]).characters,
        0 ≤ c.chosenQuantity) ∧
      (∀ cart, (runOps (initLocalCache cartlessStore)
          [Op.increase "1", Op.decrease "1", Op.decrease "1"]).shoppingCart = some cart →
        0 ≤ cart.totalPrice ∧ 0 ≤ cart.numActionFigures)) :=
  ⟨by decide,
    quantities_and_cart_nonneg (initLocalCache cartlessStore)
      [Op.increase "1", Op.decrease "1", Op.decrease "1"] (by decide)⟩

/-- C1 counterexample: `exStore` is consistent (totalPrice 10 = 10·1 + 5·0,
numActionFigures 1 = 1 + 0), yet decreasing character "3" (Summer, whose
`chosenQuantity` is 0) leaves the sums unchanged while still subtracting 5
from `totalPrice` and 1 from `numActionFigures`, so consistency is lost.
This refutes the claim for arbitrary decrease calls. -/
theorem cart_consistency_cex :
    cartConsistent exStore ∧ ¬cartConsistent (decreaseChosenQuantity "3" exStore).1 := by
  constructor
  · decide
  · decide

/-- C1 amended: in a store with unique ids and non-negative quantities and
prices, any `increaseChosenQuantity` call preserves cart/character-sum
consistency, and a `decreaseChosenQuantity` call preserves it provided the
targeted character (when it exists) has `chosenQuantity ≥ 1` — decrease on a
character already at quantity 0 is exactly the case the counterexample shows
to break the invariant. -/
theorem cart_consistency_preserved (id : String) (s : Store)
    (hnd : uniqueIds s) (hnn : nonNegStore s) (hcons : cartConsistent s) :
    cartConsistent (increaseChosenQuantity id s).1 ∧
    ((∀ c, getCharacterFromCache id s = some c → 1 ≤ c.chosenQuantity) →
      cartConsistent (decreaseChosenQuantity id s).1) := by
  obtain ⟨cart, hcart, ht, hn⟩ := hcons
  constructor
  · cases hc : getCharacterFromCache id s with
    | none =>
      rw [show (increaseChosenQuantity id s).1 = s from by rw [increase_not_found hc]]
      exact ⟨cart, hcart, ht, hn⟩
    | some c =>
      have hcid := id_eq_of_getCharacter hc
      have hc' : s.characters.find? (fun x => x.id == id) = some c := hc
      have hc'' : s.characters.find? (fun x => x.id == c.id) = some c := by
        rw [hcid]
        exact hc'
      rw [show (increaseChosenQuantity id s).1
            = updateShoppingCartInc c (updateCharacterInc c s) from by rw [increase_found hc]]
      refine ⟨⟨cart.id, cart.totalPrice + c.unitPrice, cart.numActionFigures + 1⟩,
        updateShoppingCartInc_cart c _ cart
          (by rw [updateCharacterInc_shoppingCart]; exact hcart), ?_, ?_⟩
      · show cart.totalPrice + c.unitPrice
          = sumPrices (updateShoppingCartInc c (updateCharacterInc c s)).characters
        rw [updateShoppingCartInc_characters, updateCharacterInc_characters,
          sumPrices_write _ hc'' hnd, ht]
        show sumPrices s.characters + c.unitPrice
          = sumPrices s.characters + c.unitPrice * (c.chosenQuantity + 1)
            - c.unitPrice * c.chosenQuantity
        ring
      · show cart.numActionFigures + 1
          = sumQuantities (updateShoppingCartInc c (updateCharacterInc c s)).characters
        rw [updateShoppingCartInc_characters, updateCharacterInc_characters,
          sumQuantities_write _ hc'' hnd, hn]
        show sumQuantities s.characters + 1
          = sumQuantities s.characters + (c.chosenQuantity + 1) - c.chosenQuantity
        ring
  · intro hq
    cases hc : getCharacterFromCache id s with
    | none =>
      rw [show (decreaseChosenQuantity id s).1 = s from by rw [decrease_not_found hc]]
      exact ⟨cart, hcart, ht, hn⟩
    | some c =>
      have hcid := id_eq_of_getCharacter hc
      have hc' : s.characters.find? (fun x => x.id == id) = some c := hc
      have hc'' : s.characters.find? (fun x => x.id == c.id) = some c := by
        rw [hcid]
        exact hc'
      have hq1 := hq c hc
      have hmem := mem_of_getCharacter hc
      have hp0 : 0 ≤ c.unitPrice := (hnn.1 c hmem).2
      have hple : c.unitPrice ≤ c.unitPrice * c.chosenQuantity := by nlinarith
      have hfle : c.unitPrice * c.chosenQuantity ≤ sumPrices s.characters := by
        unfold sumPrices
        refine List.single_le_sum ?_ _ (List.mem_map_of_mem _ hmem)
        intro y hy
        rcases List.mem_map.1 hy with ⟨d, hd, rfl⟩
        exact mul_nonneg (hnn.1 d hd).2 (hnn.1 d hd).1
      have hqle : c.chosenQuantity ≤ sumQuantities s.characters := by
        unfold sumQuantities
        refine List.single_le_sum ?_ _ (List.mem_map_of_mem _ hmem)
        intro y hy
        rcases List.mem_map.1 hy with ⟨d, hd, rfl⟩
        exact (hnn.1 d hd).1
      have hcart1 : (updateCharacterDec c s).shoppingCart = some cart := by
        rw [updateCharacterDec_shoppingCart]
        exact hcart
      rw [show (decreaseChosenQuantity id s).1
            = updateShoppingCartDec c (updateCharacterDec c s) from by rw [decrease_found hc]]
      refine ⟨⟨cart.id, cart.totalPrice - c.unitPrice, cart.numActionFigures - 1⟩, ?_, ?_, ?_⟩
      · rw [updateShoppingCartDec_cart c _ cart hcart1,
          if_neg (show ¬cart.numActionFigures - 1 < 0 from by rw [hn]; omega),
          if_neg (show ¬cart.totalPrice - c.unitPrice < 0 from by rw [ht]; linarith)]
      · show cart.totalPrice - c.unitPrice
          = sumPrices (updateShoppingCartDec c (updateCharacterDec c s)).characters
        rw [updateShoppingCartDec_characters, updateCharacterDec_characters,
          sumPrices_write _ hc'' hnd, ht]
        show sumPrices s.characters - c.unitPrice
          = sumPrices s.characters
            + c.unitPrice * (if c.chosenQuantity - 1 < 0 then 0 else c.chosenQuantity - 1)
            - c.unitPrice * c.chosenQuantity
        rw [if_neg (show ¬c.chosenQuantity - 1 < 0 from by omega)]
        ring
      · show cart.numActionFigures - 1
          = sumQuantities (updateShoppingCartDec c (updateCharacterDec c s)).characters
        rw [updateShoppingCartDec_characters, updateCharacterDec_characters,
          sumQuantities_write _ hc'' hnd, hn]
        show sumQuantities s.characters - 1
          = sumQuantities s.characters
            + (if c.chosenQuantity - 1 < 0 then 0 else c.chosenQuantity - 1)
            - c.chosenQuantity
        rw [if_neg (show ¬c.chosenQuantity - 1 < 0 from by omega)]
        ring

theorem cart_consistency_preserved_witness :
    uniqueIds exStore ∧ nonNegStore exStore ∧ cartConsistent exStore ∧
    (cartConsistent (increaseChosenQuantity "1" exStore).1 ∧
      ((∀ c, getCharacterFromCache "1" exStore = some c → 1 ≤ c.chosenQuantity) →
        cartConsistent (decreaseChosenQuantity "1" exStore).1)) :=
  ⟨by decide, by decide, by decide,
    cart_consistency_preserved "1" exStore (by decide) (by decide) (by decide)⟩

theorem decrease_clamped_spec_witness :
    getCharacterFromCache "3" exStore = some summer ∧
    exStore.shoppingCart = some { id := "cart1", totalPrice := 10, numActionFigures := 1 } ∧
    (getCharacterFromCache "3" (decreaseChosenQuantity "3" exStore).1
        = some { summer with chosenQuantity := max (summer.chosenQuantity - 1) 0 } ∧
      (decreaseChosenQuantity "3" exStore).1.shoppingCart
        = some { id := "cart1", totalPrice := max (10 - summer.unitPrice) 0,
                 numActionFigures := max (1 - 1) 0 } ∧
      (summer.chosenQuantity = 0 → max (summer.chosenQuantity - 1) 0 = 0) ∧
      0 ≤ max (10 - summer.unitPrice) 0 ∧ 0 ≤ max ((1 : Int) - 1) 0) :=
  ⟨by decide, by decide,
    decrease_clamped_spec "3" exStore summer
      { id := "cart1", totalPrice := 10, numActionFigures := 1 } (by decide) (by decide)⟩

end RmShop
